import Mathlib

/-!
Shallow embedding of the PlsInteractBot ranking engine
(`src/commons.py`, `src/get_ranking.py`, `src/rankings_processor.py`,
`src/broadcaster.py`, `src/call_back_twitch.py`) together with proofs of
the specification's testable properties.

External collaborators (DynamoDB, the Twitch directory, the WebSocket
transport, the environment) are passed in as explicit arguments: a scan's
pages, the `batch_get_item` response, the directory response, per-subscriber
send outcomes, and so on.  Python dict truthiness, insertion-ordered dicts
and `Counter.most_common`'s stable descending order are modelled explicitly.
-/

namespace PlsInteractBot

/-! ## Data model -/

/-- Twitch user record, `commons.User`. -/
structure User where
  id : String
  login : String
  profile_image_url : String
deriving Repr, DecidableEq

/-- One item of the `comments` table as returned by a scan
(projection `chatter_user_id, reception_unixtime`); `chatter_user_id` is
`none` when the attribute is missing. -/
structure CommentItem where
  chatter_user_id : Option String
  reception_unixtime : Int
deriving Repr, DecidableEq

/-- One page of a DynamoDB `scan` response. -/
structure ScanResponse where
  items : List CommentItem
  lastEvaluatedKey : Option String
deriving Repr, DecidableEq

/-- Pagination loop shared by `commons.get_ranking`, `get_ranking.get_ranking`
and `rankings_processor.get_ranking`: call `scan`, extend `all_messages`,
stop when no `LastEvaluatedKey` is returned.  The argument is the sequence of
responses the store hands back; the result is the collected items and the
number of `scan` calls made. -/
def scanAll : List ScanResponse → List CommentItem × Nat
  | [] => ([], 0)
  | r :: rest =>
    match r.lastEvaluatedKey with
    | none => (r.items, 1)
    | some _ =>
      let p := scanAll rest
      (r.items ++ p.1, p.2 + 1)

/-- The chatter id of a scanned item after Python truthiness filtering:
`item.get("chatter_user_id", {}).get("S")` followed by `if chatter_user_id:`
skips a missing attribute and the empty string. -/
def chatterOf (item : CommentItem) : Option String :=
  match item.chatter_user_id with
  | some uid => if uid = "" then none else some uid
  | none => none

/-- Increment the count of `uid` in an insertion-ordered association list,
appending a fresh `(uid, 1)` binding when absent — the behaviour of
`Counter.__getitem__`/`__setitem__` on a `collections.Counter`. -/
def bump : List (String × Nat) → String → List (String × Nat)
  | [], uid => [(uid, 1)]
  | (k, c) :: rest, uid =>
    if k = uid then (k, c + 1) :: rest else (k, c) :: bump rest uid

/-- The `chatter_message_counts` Counter built by the aggregation loops:
keys appear in order of first occurrence in scan order. -/
def tally (items : List CommentItem) : List (String × Nat) :=
  items.foldl
    (fun acc item =>
      match chatterOf item with
      | some uid => bump acc uid
      | none => acc)
    []

/-- Stable insertion of a counted entry into a descending-by-count list:
the entry goes after every element of count `>` its own and before the first
element of count `≤` its own. -/
def insertByCount (p : String × Nat) : List (String × Nat) → List (String × Nat)
  | [] => [p]
  | q :: rest => if q.2 ≤ p.2 then p :: q :: rest else q :: insertByCount p rest

/-- Stable sort by descending count (earlier elements win ties), the order
produced by `heapq.nlargest` inside `Counter.most_common`. -/
def sortByCountDesc : List (String × Nat) → List (String × Nat)
  | [] => []
  | p :: rest => insertByCount p (sortByCountDesc rest)

/-- `Counter.most_common(n)`: the `n` highest-count entries, count-descending,
ties kept in first-seen (insertion) order. -/
def mostCommon (n : Nat) (counts : List (String × Nat)) : List (String × Nat) :=
  (sortByCountDesc counts).take n

/-- Order of first occurrence of the ids of a scan, for stating the
tie-break property. -/
def firstSeenOrder (ids : List String) : List String :=
  ids.foldl (fun acc uid => if uid ∈ acc then acc else acc ++ [uid]) []

/-! ## Identity resolver (`commons.get_users`) -/

/-- One item of the `users` cache table as returned by `batch_get_item`.
A negative record carries `error_twitch_api = some "f"`; a positive record
carries the login and profile image (unused on the negative path, as in the
source, which never reads them there).  `expireAt` is the DynamoDB TTL
attribute; `get_users` itself never inspects it. -/
structure CacheItem where
  user_id : String
  error_twitch_api : Option String
  login : String
  profile_image_url : String
  expireAt : Int
deriving Repr, DecidableEq

/-- One element of the `data` list of a Twitch `/helix/users` response. -/
structure TwitchUserData where
  id : String
  login : String
  profile_image_url : String
deriving Repr, DecidableEq

/-- The environment configuration read by `get_client_id`/`get_oauth_token`:
`os.environ.get` yields `none` when the variable is unset. -/
structure Env where
  twitch_client_id : Option String
  twitch_oauth_token : Option String
deriving Repr, DecidableEq

/-- Python truthiness of `os.environ.get(...)`: `None` and `""` are falsy
(`if not client_id: raise ...`). -/
def strTruthy : Option String → Bool
  | none => false
  | some s => s ≠ ""

/-- Insertion-ordered Python dict update `m[k] = v`: overwrite in place when
the key exists, append otherwise. -/
def dictInsert (m : List (String × User)) (k : String) (v : User) :
    List (String × User) :=
  if k ∈ m.map Prod.fst then
    m.map (fun p => if p.1 = k then (k, v) else p)
  else m ++ [(k, v)]

/-- Python dict lookup `m.get(k)` (keys are unique, so the first binding is
the binding). -/
def dictGet : List (String × User) → String → Option User
  | [], _ => none
  | p :: rest, k => if p.1 = k then some p.2 else dictGet rest k

/-- Outcome of a `get_users` call: the returned mapping (or the raised
`ValueError` message), together with the observable store/network effects. -/
structure GetUsersOutcome where
  result : Except String (List (String × User))
  cacheReadCalls : Nat
  directoryCall : Option (List String)
  cacheWriteCalls : Nat
deriving Repr

/-- The `found_users_map` built from the `batch_get_item` response: items
marked `error_twitch_api == "f"` are skipped, the rest become `User` records
keyed by `user_id`. -/
def foundFromCache (cacheResp : List CacheItem) : List (String × User) :=
  cacheResp.foldl
    (fun m item =>
      if item.error_twitch_api = some "f" then m
      else dictInsert m item.user_id
        ⟨item.user_id, item.login, item.profile_image_url⟩)
    []

/-- The `cached_user_ids` set: keys of `found_users_map` plus the ids of
error-marked cache items. -/
def cachedUserIds (cacheResp : List CacheItem) : List String :=
  (foundFromCache cacheResp).map Prod.fst ++
    (cacheResp.filter (fun item => item.error_twitch_api = some "f")).map
      (fun item => item.user_id)

/-- The `twitch_fetch_ids` miss list: input ids (input order, duplicates
kept — the source does not deduplicate) not covered by the cache read. -/
def twitchFetchIds (user_ids : List String) (cacheResp : List CacheItem) :
    List String :=
  user_ids.filter (fun uid => uid ∉ cachedUserIds cacheResp)

/-- `found_users_map` after merging in the directory response: each
returned user is written over the map keyed by its Twitch id. -/
def foundWithTwitch (cacheResp : List CacheItem)
    (twitchResp : List TwitchUserData) : List (String × User) :=
  twitchResp.foldl
    (fun m u => dictInsert m u.id ⟨u.id, u.login, u.profile_image_url⟩)
    (foundFromCache cacheResp)

/-- Number of `batch_write_item` calls: one when there is at least one
positive (fetched) or negative (not-found) record to write. -/
def cacheWriteCount (twitch_fetch_ids : List String)
    (twitchResp : List TwitchUserData) : Nat :=
  if twitchResp.length +
      (twitch_fetch_ids.filter
        (fun uid => uid ∉ twitchResp.map (fun u => u.id))).length = 0
  then 0 else 1

/-- `commons.get_users`, with the external collaborators passed in:
`cacheResp` is what `batch_get_item` returns for the requested keys, `env`
the process environment, and `twitchResp` the `data` list of the directory
response (used only if a directory call is actually made).  Credentials are
only read — and `ValueError` only raised — once the miss list is known to be
non-empty. -/
def get_users (user_ids : List String) (cacheResp : List CacheItem)
    (env : Env) (twitchResp : List TwitchUserData) : GetUsersOutcome :=
  if user_ids.isEmpty then
    { result := .ok [], cacheReadCalls := 0, directoryCall := none,
      cacheWriteCalls := 0 }
  else if (twitchFetchIds user_ids cacheResp).isEmpty then
    { result := .ok (foundFromCache cacheResp), cacheReadCalls := 1,
      directoryCall := none, cacheWriteCalls := 0 }
  else if ¬ strTruthy env.twitch_client_id then
    { result := .error "TWITCH_CLIENT_ID environment variable is not set.",
      cacheReadCalls := 1, directoryCall := none, cacheWriteCalls := 0 }
  else if ¬ strTruthy env.twitch_oauth_token then
    { result := .error "TWITCH_OAUTH_TOKEN environment variable is not set.",
      cacheReadCalls := 1, directoryCall := none, cacheWriteCalls := 0 }
  else
    { result := .ok (foundWithTwitch cacheResp twitchResp),
      cacheReadCalls := 1,
      directoryCall := some (twitchFetchIds user_ids cacheResp),
      cacheWriteCalls :=
        cacheWriteCount (twitchFetchIds user_ids cacheResp) twitchResp }

/-- Modelled from the spec: the `users` table's TTL configuration on
`expireAt` is infrastructure code of this repository that is not under
`src/`; per the spec, "an expired entry is treated as absent".  A batched
get on the TTL-governed table returns, among the stored items with a
requested key, exactly those whose `expireAt` still lies in the future at
read time. -/
def ttlBatchGet (store : List CacheItem) (now : Int) (keys : List String) :
    List CacheItem :=
  store.filter (fun item => item.user_id ∈ keys && now < item.expireAt)

/-- `get_users` as run against the TTL-governed cache table. -/
def get_users_onStore (user_ids : List String) (store : List CacheItem)
    (now : Int) (env : Env) (twitchResp : List TwitchUserData) :
    GetUsersOutcome :=
  get_users user_ids (ttlBatchGet store now user_ids) env twitchResp

/-! ## Ranking assembly (`commons.get_ranking`) -/

/-- One element of the list returned by `commons.get_ranking`. -/
structure RankedEntry where
  userId : String
  userLogin : String
  messageCount : Nat
  profileImageUrl : String
deriving Repr, DecidableEq

/-- The enrichment loop of `commons.get_ranking` (lines 102–116): for each
top entry in aggregator order, emit a ranked entry only when
`user_data_map.get(user_id)` is truthy; unresolved users are skipped. -/
def build_ranking (top : List (String × Nat))
    (user_data_map : List (String × User)) : List RankedEntry :=
  top.foldl
    (fun ranking p =>
      match dictGet user_data_map p.1 with
      | some u => ranking ++ [⟨u.id, u.login, p.2, u.profile_image_url⟩]
      | none => ranking)
    []

namespace Commons

/-- `commons.get_ranking`: paginated scan, `Counter` tally,
`most_common(10)`, one batched `get_users` call for the top ids (skipped
when there are none), then the enrichment loop.  Returns the ranking (or
the propagated `get_users` error) and the number of `scan` calls. -/
def get_ranking (responses : List ScanResponse) (cacheResp : List CacheItem)
    (env : Env) (twitchResp : List TwitchUserData) :
    Except String (List RankedEntry) × Nat :=
  let scanned := scanAll responses
  let counts := tally scanned.1
  let top := mostCommon 10 counts
  let top_ids := top.map Prod.fst
  if top_ids.isEmpty then
    (.ok (build_ranking top []), scanned.2)
  else
    match (get_users top_ids cacheResp env twitchResp).result with
    | .error e => (.error e, scanned.2)
    | .ok m => (.ok (build_ranking top m), scanned.2)

end Commons

namespace GetRanking

/-- Aggregator of `src/get_ranking.py` (`get_ranking`): paginated scan,
`Counter` tally, `most_common(10)`.  Returns the `(user_id, message_count)`
list together with the number of `scan` calls made. -/
def get_ranking (responses : List ScanResponse) : List (String × Nat) × Nat :=
  let scanned := scanAll responses
  (mostCommon 10 (tally scanned.1), scanned.2)

end GetRanking

namespace RankingsProcessor

/-- Payload of the message posted back over the WebSocket connection:
`{"type": "ranking", "data": {"topChatters": ...}}` or
`{"type": "error", "data": {"message": ...}}`. -/
inductive MessagePayload where
  | ranking (topChatters : List (String × Nat))
  | error (message : String)
deriving Repr, DecidableEq

/-- Observable outcome of `rankings_processor.get_ranking`: the HTTP-style
response and the message posted to the connection (when one is given). -/
structure Outcome where
  statusCode : Nat
  body : String
  posted : Option MessagePayload
deriving Repr, DecidableEq

/-- `rankings_processor.get_ranking`: paginated scan of `comments`; on an
empty scan, a 200 with empty `topChatters`; otherwise tally, top-10, then
`put_item` into `rankings`.  `putError` is the exception text of a failing
`put_item` (`none` = the write succeeded).  On failure the status becomes
500 and `response_data` is replaced by `{"message": body_message}` before
anything is posted to the connection. -/
def get_ranking (responses : List ScanResponse) (putError : Option String)
    (hasConnection : Bool) : Outcome :=
  if (scanAll responses).1.isEmpty then
    { statusCode := 200, body := "No new messages to process.",
      posted := if hasConnection then some (.ranking []) else none }
  else
    match putError with
    | none =>
      { statusCode := 200, body := "Rankings processed successfully.",
        posted :=
          if hasConnection then
            some (.ranking (mostCommon 10 (tally (scanAll responses).1)))
          else none }
    | some e =>
      { statusCode := 500, body := "Error writing rankings: " ++ e,
        posted :=
          if hasConnection then some (.error ("Error writing rankings: " ++ e))
          else none }

end RankingsProcessor

namespace Broadcaster

/-- Result of one `post_to_connection` attempt: success, or the transport's
`GoneException`. -/
inductive SendOutcome where
  | ok
  | gone
deriving Repr, DecidableEq

/-- A loosely-typed value of the returned Python dict. -/
inductive PyVal where
  | int (n : Int)
  | str (s : String)
deriving Repr, DecidableEq

/-- Observable outcome of `broadcaster.lambda_handler`: the connection ids
delivered to, the ids deleted from the `web_socket_sonnections` table, the
registry contents afterwards, and the returned dict. -/
structure Outcome where
  delivered : List String
  removed : List String
  remaining : List String
  response : List (String × PyVal)
deriving Repr, DecidableEq

/-- The fan-out loop of `broadcaster.lambda_handler`: one
`post_to_connection` per scanned connection, in order; the ids split into
(successfully delivered, deleted-as-gone). -/
def fanout (connections : List String) (send : String → SendOutcome) :
    List String × List String :=
  connections.foldl
    (fun acc c =>
      match send c with
      | .ok => (acc.1 ++ [c], acc.2)
      | .gone => (acc.1, acc.2 ++ [c]))
    ([], [])

/-- `broadcaster.lambda_handler`: scan the connections table, post the
ranking payload to each connection in order; a `GoneException` deletes that
connection and the loop continues.  The handler always returns the constant
dict `{"statusCode": 200, "body": "Ranking sent to clients"}`. -/
def lambda_handler (connections : List String)
    (send : String → SendOutcome) : Outcome :=
  { delivered := (fanout connections send).1
    removed := (fanout connections send).2
    remaining := connections.filter (fun c => c ∉ (fanout connections send).2)
    response :=
      [("statusCode", .int 200), ("body", .str "Ranking sent to clients")] }

end Broadcaster

namespace CallBackTwitch

/-- The AWS Lambda event seen by `call_back_twitch.lambda_handler`:
lower-cased headers and the raw request body (`none` = no `body` key). -/
structure WebhookEvent where
  headers : List (String × String)
  body : Option String
deriving Repr, DecidableEq

def MESSAGE_ID_KEY : String := "twitch-eventsub-message-id"

def MESSAGE_TIMESTAMP_KEY : String := "twitch-eventsub-message-timestamp"

def MESSAGE_SIGNATURE_KEY : String := "twitch-eventsub-message-signature"

def MESSAGE_TYPE_KEY : String := "twitch-eventsub-message-type"

def HMAC_PREFIX : String := "sha256="

/-- `headers.get(k)`. -/
def headerGet (e : WebhookEvent) (k : String) : Option String :=
  (e.headers.find? (fun p => p.1 = k)).map Prod.snd

/-- `is_valid_event`: the four Twitch EventSub headers and the body must be
present. -/
def is_valid_event (e : WebhookEvent) : Bool :=
  (headerGet e MESSAGE_ID_KEY).isSome &&
  (headerGet e MESSAGE_TIMESTAMP_KEY).isSome &&
  (headerGet e MESSAGE_SIGNATURE_KEY).isSome &&
  (headerGet e MESSAGE_TYPE_KEY).isSome &&
  e.body.isSome

/-- `is_valid_signature`, parameterized over the HMAC-SHA256 hex digest
function `hmacHex secret message`.  It is only called after
`is_valid_event`, so the direct header/body subscripts read the present
values; `hmac.compare_digest` on two hex strings is string equality. -/
def is_valid_signature (hmacHex : String → String → String) (secret : String)
    (e : WebhookEvent) : Bool :=
  let message_id := (headerGet e MESSAGE_ID_KEY).getD ""
  let message_timestamp := (headerGet e MESSAGE_TIMESTAMP_KEY).getD ""
  let message_signature := (headerGet e MESSAGE_SIGNATURE_KEY).getD ""
  let message_body := e.body.getD ""
  let got_digest :=
    HMAC_PREFIX ++ hmacHex secret (message_id ++ message_timestamp ++ message_body)
  got_digest = message_signature

/-- The parts of a parsed JSON body that the handler reads. -/
structure ParsedBody where
  challenge : Option String
  subscription_type : Option String
deriving Repr, DecidableEq

/-- `is_challenge`: the message-type header equals
`webhook_callback_verification`. -/
def is_challenge (e : WebhookEvent) : Bool :=
  headerGet e MESSAGE_TYPE_KEY = some "webhook_callback_verification"

/-- `is_channel_chat_message`, parameterized over `json.loads`
(`parse`, `none` = `JSONDecodeError`). -/
def is_channel_chat_message (parse : String → Option ParsedBody)
    (e : WebhookEvent) : Bool :=
  if headerGet e MESSAGE_TYPE_KEY ≠ some "notification" then false
  else
    match e.body with
    | none => false
    | some b =>
      match parse b with
      | none => false
      | some pb => pb.subscription_type = some "channel.chat.message"

/-- HTTP-style response dict. -/
structure HttpResponse where
  statusCode : Nat
  headers : List (String × String)
  body : Option String
deriving Repr, DecidableEq

/-- `call_back_twitch.lambda_handler`.  `saveOk` is the outcome of
`save_channel_chat_message` (`false` = the store write raised; the handler
catches it and still answers 200).  The result is `.error` when an exception
escapes the handler — a JSON parse failure in the challenge branch has no
try/except around it. -/
def lambda_handler (hmacHex : String → String → String) (secret : String)
    (parse : String → Option ParsedBody) (saveOk : Bool)
    (e : WebhookEvent) : Except String HttpResponse :=
  if ¬ is_valid_event e then .ok ⟨400, [], none⟩
  else if ¬ is_valid_signature hmacHex secret e then .ok ⟨403, [], none⟩
  else if is_challenge e then
    match parse (e.body.getD "") with
    | none => .error "json.JSONDecodeError"
    | some pb =>
      match pb.challenge with
      | some c =>
        if c ≠ "" then .ok ⟨200, [("content-type", "text/plain")], some c⟩
        else .ok ⟨400, [], some "No challenge found"⟩
      | none => .ok ⟨400, [], some "No challenge found"⟩
  else if is_channel_chat_message parse e then
    -- the try/except around the store write answers 200 on both outcomes
    if saveOk then .ok ⟨200, [], none⟩ else .ok ⟨200, [], none⟩
  else .ok ⟨200, [], none⟩

end CallBackTwitch

/-! ## Basic lemmas about the aggregation pipeline -/

theorem mem_insertByCount {p x : String × Nat} {l : List (String × Nat)} :
    x ∈ insertByCount p l ↔ x = p ∨ x ∈ l := by
  induction l with
  | nil => simp [insertByCount]
  | cons q rest ih =>
    by_cases h : q.2 ≤ p.2
    · rw [insertByCount, if_pos h]
      simp only [List.mem_cons]
    · rw [insertByCount, if_neg h]
      simp only [List.mem_cons, ih]
      tauto

theorem pairwise_insertByCount {p : String × Nat} {l : List (String × Nat)}
    (hl : l.Pairwise (fun a b => b.2 ≤ a.2)) :
    (insertByCount p l).Pairwise (fun a b => b.2 ≤ a.2) := by
  induction l with
  | nil => simp [insertByCount]
  | cons q rest ih =>
    rcases List.pairwise_cons.mp hl with ⟨hq, hrest⟩
    by_cases h : q.2 ≤ p.2
    · rw [insertByCount]
      simp only [h, if_true]
      refine List.pairwise_cons.mpr ⟨?_, hl⟩
      intro b hb
      rcases List.mem_cons.mp hb with hb | hb
      · exact hb ▸ h
      · exact le_trans (hq b hb) h
    · rw [insertByCount]
      simp only [h, if_false]
      refine List.pairwise_cons.mpr ⟨?_, ih hrest⟩
      intro b hb
      rcases mem_insertByCount.mp hb with hb | hb
      · exact hb ▸ le_of_lt (lt_of_not_le h)
      · exact hq b hb

theorem pairwise_sortByCountDesc (l : List (String × Nat)) :
    (sortByCountDesc l).Pairwise (fun a b => b.2 ≤ a.2) := by
  induction l with
  | nil => simp [sortByCountDesc]
  | cons p rest ih => exact pairwise_insertByCount ih

theorem length_insertByCount (p : String × Nat) (l : List (String × Nat)) :
    (insertByCount p l).length = l.length + 1 := by
  induction l with
  | nil => rfl
  | cons q rest ih =>
    by_cases h : q.2 ≤ p.2 <;> simp [insertByCount, h, ih]

theorem length_sortByCountDesc (l : List (String × Nat)) :
    (sortByCountDesc l).length = l.length := by
  induction l with
  | nil => rfl
  | cons p rest ih => simp [sortByCountDesc, length_insertByCount, ih]

theorem filter_insertByCount (p : String × Nat) (l : List (String × Nat)) (c : Nat) :
    (insertByCount p l).filter (fun q => q.2 = c) =
      if p.2 = c then p :: l.filter (fun q => q.2 = c)
      else l.filter (fun q => q.2 = c) := by
  induction l with
  | nil =>
    by_cases hp : p.2 = c <;> simp [insertByCount, hp]
  | cons q rest ih =>
    rw [insertByCount]
    by_cases h : q.2 ≤ p.2
    · rw [if_pos h]
      by_cases hp : p.2 = c <;> by_cases hqc : q.2 = c <;>
        simp [List.filter_cons, hp, hqc]
    · rw [if_neg h, List.filter_cons]
      by_cases hqc : q.2 = c
      · have hp : ¬ p.2 = c := fun hpc => h (le_of_eq (hqc.trans hpc.symm))
        simp [hqc, hp, ih, List.filter_cons]
      · simp [hqc, ih, List.filter_cons]

theorem filter_sortByCountDesc (l : List (String × Nat)) (c : Nat) :
    (sortByCountDesc l).filter (fun q => q.2 = c) =
      l.filter (fun q => q.2 = c) := by
  induction l with
  | nil => rfl
  | cons p rest ih =>
    by_cases hp : p.2 = c <;>
      simp [sortByCountDesc, filter_insertByCount, hp, List.filter, ih]

theorem filter_take_append (l : List (String × Nat)) (n : Nat) (q : String × Nat → Bool) :
    ∃ t, l.filter q = (l.take n).filter q ++ t := by
  refine ⟨(l.drop n).filter q, ?_⟩
  conv_lhs => rw [← List.take_append_drop n l]
  rw [List.filter_append]

theorem bump_map_fst (acc : List (String × Nat)) (uid : String) :
    (bump acc uid).map Prod.fst =
      if uid ∈ acc.map Prod.fst then acc.map Prod.fst
      else acc.map Prod.fst ++ [uid] := by
  induction acc with
  | nil => simp [bump]
  | cons p rest ih =>
    by_cases h : p.1 = uid
    · simp [bump, h]
    · have hne : ¬ uid = p.1 := fun hc => h hc.symm
      by_cases hc : uid ∈ rest.map Prod.fst <;>
        simp [bump, h, ih, hc, hne, List.mem_cons]

theorem tally_map_fst (items : List CommentItem) :
    (tally items).map Prod.fst = firstSeenOrder (items.filterMap chatterOf) := by
  suffices h : ∀ acc : List (String × Nat),
      ((items.foldl
        (fun acc item =>
          match chatterOf item with
          | some uid => bump acc uid
          | none => acc) acc).map Prod.fst) =
      ((items.filterMap chatterOf).foldl
        (fun acc uid => if uid ∈ acc then acc else acc ++ [uid])
        (acc.map Prod.fst)) by
    exact h []
  induction items with
  | nil => intro acc; rfl
  | cons item rest ih =>
    intro acc
    cases hco : chatterOf item with
    | none => simp [List.foldl_cons, List.filterMap_cons, hco, ih]
    | some uid =>
      simp only [List.foldl_cons, List.filterMap_cons, hco, ih, bump_map_fst]

/-! ## Lemmas about the dict model and the resolver -/

theorem dictGet_map_replace (m : List (String × User)) (k uid : String)
    (v : User) (h : k ≠ uid) :
    dictGet (m.map (fun p => if p.1 = k then (k, v) else p)) uid
      = dictGet m uid := by
  induction m with
  | nil => rfl
  | cons p rest ih =>
    by_cases hp : p.1 = k
    · simp [dictGet, hp, h, ih]
    · by_cases hu : p.1 = uid <;> simp [dictGet, hp, hu, ih, Ne.symm h]

theorem dictGet_append_single (m : List (String × User)) (k uid : String)
    (v : User) (h : k ≠ uid) :
    dictGet (m ++ [(k, v)]) uid = dictGet m uid := by
  induction m with
  | nil => simp [dictGet, h]
  | cons p rest ih =>
    by_cases hu : p.1 = uid <;> simp [dictGet, hu, ih]

theorem dictGet_dictInsert_ne (m : List (String × User)) (k uid : String)
    (v : User) (h : k ≠ uid) :
    dictGet (dictInsert m k v) uid = dictGet m uid := by
  unfold dictInsert
  by_cases hmem : k ∈ m.map Prod.fst
  · rw [if_pos hmem, dictGet_map_replace m k uid v h]
  · rw [if_neg hmem, dictGet_append_single m k uid v h]

theorem dictGet_foldlCache_none (cacheResp : List CacheItem)
    (acc : List (String × User)) (uid : String)
    (hacc : dictGet acc uid = none)
    (huniq : ∀ it ∈ cacheResp, it.user_id = uid →
      it.error_twitch_api = some "f") :
    dictGet
      (cacheResp.foldl
        (fun m item =>
          if item.error_twitch_api = some "f" then m
          else dictInsert m item.user_id
            ⟨item.user_id, item.login, item.profile_image_url⟩) acc)
      uid = none := by
  induction cacheResp generalizing acc with
  | nil => exact hacc
  | cons it rest ih =>
    rw [List.foldl_cons]
    refine ih _ ?_ (fun x hx h => huniq x (List.mem_cons_of_mem _ hx) h)
    by_cases herr : it.error_twitch_api = some "f"
    · rw [if_pos herr]; exact hacc
    · have hne : it.user_id ≠ uid := fun hc =>
        herr (huniq it (List.mem_cons_self _ _) hc)
      rw [if_neg herr, dictGet_dictInsert_ne _ _ _ _ hne]
      exact hacc

theorem dictGet_foundFromCache_none (cacheResp : List CacheItem) (uid : String)
    (huniq : ∀ it ∈ cacheResp, it.user_id = uid →
      it.error_twitch_api = some "f") :
    dictGet (foundFromCache cacheResp) uid = none :=
  dictGet_foldlCache_none cacheResp [] uid rfl huniq

theorem dictGet_foldlTwitch (twitchResp : List TwitchUserData)
    (acc : List (String × User)) (uid : String)
    (hdir : ∀ u ∈ twitchResp, u.id ≠ uid) :
    dictGet
      (twitchResp.foldl
        (fun m u => dictInsert m u.id ⟨u.id, u.login, u.profile_image_url⟩)
        acc) uid = dictGet acc uid := by
  induction twitchResp generalizing acc with
  | nil => rfl
  | cons u rest ih =>
    rw [List.foldl_cons,
      ih _ (fun x hx => hdir x (List.mem_cons_of_mem _ hx)),
      dictGet_dictInsert_ne _ _ _ _ (hdir u (List.mem_cons_self _ _))]

theorem dictGet_foundWithTwitch_none (cacheResp : List CacheItem)
    (twitchResp : List TwitchUserData) (uid : String)
    (huniq : ∀ it ∈ cacheResp, it.user_id = uid →
      it.error_twitch_api = some "f")
    (hdir : ∀ u ∈ twitchResp, u.id ≠ uid) :
    dictGet (foundWithTwitch cacheResp twitchResp) uid = none := by
  rw [foundWithTwitch, dictGet_foldlTwitch _ _ _ hdir]
  exact dictGet_foundFromCache_none cacheResp uid huniq

theorem mem_keys_dictInsert {uid k : String} {v : User}
    {m : List (String × User)}
    (h : uid ∈ (dictInsert m k v).map Prod.fst) :
    uid ∈ m.map Prod.fst ∨ uid = k := by
  unfold dictInsert at h
  by_cases hmem : k ∈ m.map Prod.fst
  · rw [if_pos hmem, List.map_map] at h
    rcases List.mem_map.mp h with ⟨q, hq, hfq⟩
    by_cases hqk : q.1 = k
    · right
      simp only [Function.comp, hqk, if_pos] at hfq
      exact hfq.symm
    · left
      simp only [Function.comp, hqk, if_neg, ite_false] at hfq
      exact List.mem_map.mpr ⟨q, hq, hfq⟩
  · rw [if_neg hmem, List.map_append] at h
    rcases List.mem_append.mp h with h | h
    · exact Or.inl h
    · right
      simpa using h

theorem mem_keys_foldlCache {uid : String} (cacheResp : List CacheItem)
    (acc : List (String × User))
    (h : uid ∈
      ((cacheResp.foldl
        (fun m item =>
          if item.error_twitch_api = some "f" then m
          else dictInsert m item.user_id
            ⟨item.user_id, item.login, item.profile_image_url⟩) acc).map
        Prod.fst)) :
    uid ∈ acc.map Prod.fst ∨ ∃ it ∈ cacheResp, it.user_id = uid := by
  induction cacheResp generalizing acc with
  | nil => exact Or.inl h
  | cons it rest ih =>
    rw [List.foldl_cons] at h
    rcases ih _ h with hacc | ⟨x, hx, hxid⟩
    · by_cases herr : it.error_twitch_api = some "f"
      · rw [if_pos herr] at hacc
        exact Or.inl hacc
      · rw [if_neg herr] at hacc
        rcases mem_keys_dictInsert hacc with hacc | hk
        · exact Or.inl hacc
        · exact Or.inr ⟨it, List.mem_cons_self _ _, hk.symm⟩
    · exact Or.inr ⟨x, List.mem_cons_of_mem _ hx, hxid⟩

theorem mem_keys_foundFromCache {uid : String} {cacheResp : List CacheItem}
    (h : uid ∈ (foundFromCache cacheResp).map Prod.fst) :
    ∃ it ∈ cacheResp, it.user_id = uid := by
  rcases mem_keys_foldlCache cacheResp [] h with habs | hgood
  · simp at habs
  · exact hgood

theorem not_mem_cachedUserIds {uid : String} {cacheResp : List CacheItem}
    (h : ∀ it ∈ cacheResp, it.user_id ≠ uid) :
    uid ∉ cachedUserIds cacheResp := by
  intro hmem
  rcases List.mem_append.mp hmem with hmem | hmem
  · rcases mem_keys_foundFromCache hmem with ⟨it, hit, hid⟩
    exact h it hit hid
  · rcases List.mem_map.mp hmem with ⟨it, hit, hid⟩
    exact h it (List.mem_of_mem_filter hit) hid

theorem mem_cachedUserIds_of_error {uid : String} {cacheResp : List CacheItem}
    {item : CacheItem} (hmem : item ∈ cacheResp) (hid : item.user_id = uid)
    (hneg : item.error_twitch_api = some "f") :
    uid ∈ cachedUserIds cacheResp := by
  refine List.mem_append.mpr (Or.inr ?_)
  exact List.mem_map.mpr
    ⟨item, List.mem_filter.mpr ⟨hmem, by simp [hneg]⟩, hid⟩

/-! ## Lemmas about the enrichment loop -/

theorem build_ranking_eq_filterMap (top : List (String × Nat))
    (m : List (String × User)) :
    build_ranking top m =
      top.filterMap
        (fun p => (dictGet m p.1).map
          (fun u => RankedEntry.mk u.id u.login p.2 u.profile_image_url)) := by
  suffices h : ∀ acc : List RankedEntry, top.foldl
      (fun ranking p =>
        match dictGet m p.1 with
        | some u =>
          ranking ++ [RankedEntry.mk u.id u.login p.2 u.profile_image_url]
        | none => ranking) acc =
      acc ++ top.filterMap
        (fun p => (dictGet m p.1).map
          (fun u => RankedEntry.mk u.id u.login p.2 u.profile_image_url)) by
    simpa [build_ranking] using h []
  induction top with
  | nil => intro acc; simp
  | cons p rest ih =>
    intro acc
    rw [List.foldl_cons, List.filterMap_cons]
    cases h : dictGet m p.1 with
    | none => simp [h, ih]
    | some u => simp [h, ih]

theorem dictGet_id (m : List (String × User))
    (hm : ∀ p ∈ m, (p.2).id = p.1) (k : String) (u : User)
    (h : dictGet m k = some u) : u.id = k := by
  induction m with
  | nil => cases h
  | cons p rest ih =>
    rw [dictGet] at h
    by_cases hp : p.1 = k
    · rw [if_pos hp] at h
      injection h with h
      rw [← h, hm p (List.mem_cons_self _ _), hp]
    · rw [if_neg hp] at h
      exact ih (fun q hq => hm q (List.mem_cons_of_mem _ hq)) h

/-! ## Lemmas about the scan loop -/

theorem scanAll_items_nil (responses : List ScanResponse)
    (hempty : ∀ r ∈ responses, r.items = []) :
    (scanAll responses).1 = [] := by
  induction responses with
  | nil => rfl
  | cons r rest ih =>
    cases hk : r.lastEvaluatedKey with
    | none => simp [scanAll, hk, hempty r (List.mem_cons_self _ _)]
    | some k =>
      simp [scanAll, hk, hempty r (List.mem_cons_self _ _),
        ih (fun x hx => hempty x (List.mem_cons_of_mem _ hx))]

theorem scanAll_calls_pos (responses : List ScanResponse)
    (hne : responses ≠ []) : 1 ≤ (scanAll responses).2 := by
  cases responses with
  | nil => exact absurd rfl hne
  | cons r rest =>
    cases hk : r.lastEvaluatedKey <;> simp [scanAll, hk]

/-! ## The claims -/

/-- C10: calling `get_users` with an empty id list returns an empty mapping
and performs no cache read, no directory call and no cache write. -/
theorem C10_get_users_empty_ids (cacheResp : List CacheItem) (env : Env)
    (twitchResp : List TwitchUserData) :
    get_users [] cacheResp env twitchResp =
      { result := .ok [], cacheReadCalls := 0, directoryCall := none,
        cacheWriteCalls := 0 } := rfl

/-- C9: over a time range containing no events (every scan page is empty),
the aggregation returns an empty sequence rather than an error, and performs
at least one scan call against the event store. -/
theorem C9_empty_range_returns_empty (responses : List ScanResponse)
    (hne : responses ≠ [])
    (hempty : ∀ r ∈ responses, r.items = []) :
    (GetRanking.get_ranking responses).1 = [] ∧
      1 ≤ (GetRanking.get_ranking responses).2 := by
  constructor
  · show mostCommon 10 (tally (scanAll responses).1) = []
    rw [scanAll_items_nil responses hempty]
    rfl
  · show 1 ≤ (scanAll responses).2
    exact scanAll_calls_pos responses hne

/-- Witness for C9 at a single empty page. -/
theorem C9_witness :
    ([ScanResponse.mk [] none] ≠ ([] : List ScanResponse)) ∧
    ((GetRanking.get_ranking [ScanResponse.mk [] none]).1 = [] ∧
      1 ≤ (GetRanking.get_ranking [ScanResponse.mk [] none]).2) :=
  ⟨by decide, C9_empty_range_returns_empty _ (by decide) (by decide)⟩

/-- C3: for every scanned event list, the aggregation returns at most
K = 10 entries, sorted by descending count; for each count value the
selected entries are an initial segment of the tally's entries with that
count (stable tie-break, no re-sorting); and the tally lists participants
in order of first occurrence in scan order. -/
theorem C3_topk_sorted_stable (responses : List ScanResponse) :
    (GetRanking.get_ranking responses).1.length ≤ 10 ∧
    (GetRanking.get_ranking responses).1.Pairwise (fun a b => b.2 ≤ a.2) ∧
    (∀ c : Nat, ∃ t,
      (tally (scanAll responses).1).filter (fun q => q.2 = c) =
        (GetRanking.get_ranking responses).1.filter (fun q => q.2 = c) ++ t) ∧
    (tally (scanAll responses).1).map Prod.fst =
      firstSeenOrder ((scanAll responses).1.filterMap chatterOf) := by
  refine ⟨?_, ?_, ?_, tally_map_fst _⟩
  · show (mostCommon 10 (tally (scanAll responses).1)).length ≤ 10
    rw [mostCommon, List.length_take]
    exact min_le_left _ _
  · show (mostCommon 10 (tally (scanAll responses).1)).Pairwise
      (fun a b => b.2 ≤ a.2)
    rw [mostCommon]
    exact (pairwise_sortByCountDesc _).sublist (List.take_sublist _ _)
  · intro c
    show ∃ t,
      (tally (scanAll responses).1).filter (fun q => q.2 = c) =
        (mostCommon 10 (tally (scanAll responses).1)).filter
          (fun q => q.2 = c) ++ t
    rw [mostCommon, ← filter_sortByCountDesc (tally (scanAll responses).1) c]
    exact filter_take_append _ 10 _

/-- C1: for every aggregator output and resolver mapping (which keys every
user record by its own id, as `get_users` does), the enrichment loop emits
exactly the aggregator entries whose identity resolved, in aggregator order
with their counts — an entry appears iff the resolver returned an identity,
and no re-sorting happens after enrichment. -/
theorem C1_enriched_entries (top : List (String × Nat))
    (m : List (String × User))
    (hm : ∀ p ∈ m, (p.2).id = p.1) :
    (build_ranking top m).map (fun e => (e.userId, e.messageCount)) =
      top.filter (fun p => (dictGet m p.1).isSome) := by
  rw [build_ranking_eq_filterMap]
  induction top with
  | nil => rfl
  | cons p rest ih =>
    rw [List.filterMap_cons, List.filter_cons]
    cases h : dictGet m p.1 with
    | none => simp [h, ih]
    | some u =>
      have hu : u.id = p.1 := dictGet_id m hm p.1 u h
      simp [h, ih, hu]

def c1Top : List (String × Nat) := [("A", 5), ("B", 3), ("C", 1)]

def c1Map : List (String × User) :=
  [("A", ⟨"A", "loginA", "urlA"⟩), ("C", ⟨"C", "loginC", "urlC"⟩)]

/-- Witness for C1 at the spec's example: aggregator output
`[(A,5),(B,3),(C,1)]` with identities resolved only for A and C yields the
entries `[A:5, C:1]` in that order. -/
theorem C1_witness :
    (∀ p ∈ c1Map, (p.2).id = p.1) ∧
    ((build_ranking c1Top c1Map).map (fun e => (e.userId, e.messageCount)) =
      c1Top.filter (fun p => (dictGet c1Map p.1).isSome)) ∧
    build_ranking c1Top c1Map =
      [⟨"A", "loginA", 5, "urlA"⟩, ⟨"C", "loginC", 1, "urlC"⟩] :=
  ⟨by decide, C1_enriched_entries c1Top c1Map (by decide), by decide⟩

/-- C2: an input ID whose cache read returned an unexpired NegativeRecord
(`error_twitch_api == "f"`) is excluded from any directory call of this
invocation and absent from the returned mapping.  `huniq` is the store
invariant (at most one cache entry per id, so every returned item for `uid`
is the negative one); `hdir` is the directory interface contract that a
response only contains requested ids — `uid` is never requested. -/
theorem C2_unexpired_negative_record (user_ids : List String)
    (cacheResp : List CacheItem) (env : Env)
    (twitchResp : List TwitchUserData) (uid : String) (now : Int)
    (item : CacheItem)
    (hmem : item ∈ cacheResp)
    (hid : item.user_id = uid)
    (hneg : item.error_twitch_api = some "f")
    (hunexpired : now < item.expireAt)
    (huniq : ∀ it ∈ cacheResp, it.user_id = uid →
      it.error_twitch_api = some "f")
    (hdir : ∀ u ∈ twitchResp, u.id ≠ uid) :
    (∀ l, (get_users user_ids cacheResp env twitchResp).directoryCall =
      some l → uid ∉ l) ∧
    (∀ m, (get_users user_ids cacheResp env twitchResp).result = .ok m →
      dictGet m uid = none) := by
  have hcached : uid ∈ cachedUserIds cacheResp :=
    mem_cachedUserIds_of_error hmem hid hneg
  have hnotfetch : uid ∉ twitchFetchIds user_ids cacheResp := by
    intro hf
    have hpred := (List.mem_filter.mp hf).2
    simp only [decide_not, Bool.not_eq_true', decide_eq_false_iff_not] at hpred
    exact hpred hcached
  rw [get_users]
  by_cases h0 : user_ids.isEmpty
  · rw [if_pos h0]
    refine ⟨fun l hl => (by cases hl), fun m hm => ?_⟩
    cases hm
    rfl
  · rw [if_neg h0]
    by_cases h1 : (twitchFetchIds user_ids cacheResp).isEmpty
    · rw [if_pos h1]
      refine ⟨fun l hl => (by cases hl), fun m hm => ?_⟩
      cases hm
      exact dictGet_foundFromCache_none cacheResp uid huniq
    · rw [if_neg h1]
      by_cases h2 : ¬ strTruthy env.twitch_client_id
      · rw [if_pos h2]
        exact ⟨fun l hl => (by cases hl), fun m hm => (by cases hm)⟩
      · rw [if_neg h2]
        by_cases h3 : ¬ strTruthy env.twitch_oauth_token
        · rw [if_pos h3]
          exact ⟨fun l hl => (by cases hl), fun m hm => (by cases hm)⟩
        · rw [if_neg h3]
          refine ⟨fun l hl => ?_, fun m hm => ?_⟩
          · cases hl
            exact hnotfetch
          · cases hm
            exact dictGet_foundWithTwitch_none cacheResp twitchResp uid
              huniq hdir

def c2CacheResp : List CacheItem :=
  [⟨"N", some "f", "", "", 100⟩, ⟨"P", none, "loginP", "urlP", 100⟩]

def c2Env : Env := ⟨some "cid", some "tok"⟩

/-- Witness for C2: a batch `[N, P]` whose cache read returns an unexpired
negative record for N and a positive record for P. -/
theorem C2_witness :
    ((⟨"N", some "f", "", "", 100⟩ : CacheItem) ∈ c2CacheResp ∧
      (0 : Int) < 100) ∧
    ((∀ l, (get_users ["N", "P"] c2CacheResp c2Env []).directoryCall =
      some l → "N" ∉ l) ∧
    (∀ m, (get_users ["N", "P"] c2CacheResp c2Env []).result = .ok m →
      dictGet m "N" = none)) :=
  ⟨⟨by decide, by decide⟩,
    C2_unexpired_negative_record ["N", "P"] c2CacheResp c2Env [] "N" 0
      ⟨"N", some "f", "", "", 100⟩ (by decide) rfl rfl (by decide)
      (by decide) (by decide)⟩

/-- C4: against the TTL-governed cache table (spec-modelled: the TTL
configuration lives outside `src/`; an expired entry is treated as absent by
the store), an entry whose `expireAt` lies in the past at resolve time is
not served from the cache: its id joins the miss list and is re-fetched
from the directory.  `huniq` is the at-most-one-entry-per-id store
invariant. -/
theorem C4_expired_entry_refetched (user_ids : List String)
    (store : List CacheItem) (now : Int) (env : Env)
    (twitchResp : List TwitchUserData) (uid : String) (item : CacheItem)
    (hmem : item ∈ store)
    (hid : item.user_id = uid)
    (hexpired : item.expireAt ≤ now)
    (huniq : ∀ it ∈ store, it.user_id = uid → it = item)
    (hin : uid ∈ user_ids)
    (hcid : strTruthy env.twitch_client_id = true)
    (htok : strTruthy env.twitch_oauth_token = true) :
    ∃ l, (get_users_onStore user_ids store now env
      twitchResp).directoryCall = some l ∧ uid ∈ l := by
  have hnone : ∀ it ∈ ttlBatchGet store now user_ids, it.user_id ≠ uid := by
    intro it hit hitid
    rcases List.mem_filter.mp hit with ⟨hstore, hpred⟩
    have heq : it = item := huniq it hstore hitid
    rw [heq] at hpred
    simp only [Bool.and_eq_true, decide_eq_true_eq] at hpred
    exact absurd hpred.2 (not_lt.mpr hexpired)
  have hnotcached : uid ∉ cachedUserIds (ttlBatchGet store now user_ids) :=
    not_mem_cachedUserIds hnone
  have hfetch : uid ∈ twitchFetchIds user_ids (ttlBatchGet store now user_ids) :=
    List.mem_filter.mpr ⟨hin, by simpa using hnotcached⟩
  have h1 : ¬ (twitchFetchIds user_ids (ttlBatchGet store now
      user_ids)).isEmpty := by
    intro h
    rw [List.isEmpty_iff] at h
    rw [h] at hfetch
    cases hfetch
  have h0 : ¬ user_ids.isEmpty := by
    intro h
    rw [List.isEmpty_iff] at h
    rw [h] at hin
    cases hin
  refine ⟨twitchFetchIds user_ids (ttlBatchGet store now user_ids), ?_, hfetch⟩
  rw [get_users_onStore, get_users, if_neg h0, if_neg h1,
    if_neg (by simp [hcid]), if_neg (by simp [htok])]

def c4Store : List CacheItem := [⟨"A", none, "loginA", "urlA", 50⟩]

def c4Env : Env := ⟨some "cid", some "tok"⟩

/-- Witness for C4: a store entry for A that expired at 50, resolved at
time 100. -/
theorem C4_witness :
    ((⟨"A", none, "loginA", "urlA", 50⟩ : CacheItem) ∈ c4Store ∧
      (50 : Int) ≤ 100) ∧
    (∃ l, (get_users_onStore ["A"] c4Store 100 c4Env
      [⟨"A", "loginA", "urlA"⟩]).directoryCall = some l ∧ "A" ∈ l) :=
  ⟨⟨by decide, by decide⟩,
    C4_expired_entry_refetched ["A"] c4Store 100 c4Env
      [⟨"A", "loginA", "urlA"⟩] "A" ⟨"A", none, "loginA", "urlA", 50⟩
      (by decide) rfl (by decide) (by decide) (by decide) rfl rfl⟩

/-- C7 (amended): when some input ID has no cache entry at all (so the miss
list is non-empty) and a directory credential is absent, `get_users` raises
`ValueError`, aborting the whole batch: no mapping is returned for any ID —
including cached ones — and no directory call or cache write happens. -/
theorem C7_missing_credentials_abort (user_ids : List String)
    (cacheResp : List CacheItem) (env : Env)
    (twitchResp : List TwitchUserData) (uid : String)
    (hin : uid ∈ user_ids)
    (hnocache : ∀ it ∈ cacheResp, it.user_id ≠ uid)
    (hcred : strTruthy env.twitch_client_id = false ∨
      strTruthy env.twitch_oauth_token = false) :
    (∃ e, (get_users user_ids cacheResp env twitchResp).result = .error e) ∧
    (get_users user_ids cacheResp env twitchResp).directoryCall = none ∧
    (get_users user_ids cacheResp env twitchResp).cacheWriteCalls = 0 := by
  have hnotcached : uid ∉ cachedUserIds cacheResp :=
    not_mem_cachedUserIds hnocache
  have hfetch : uid ∈ twitchFetchIds user_ids cacheResp :=
    List.mem_filter.mpr ⟨hin, by simpa using hnotcached⟩
  have h1 : ¬ (twitchFetchIds user_ids cacheResp).isEmpty := by
    intro h
    rw [List.isEmpty_iff] at h
    rw [h] at hfetch
    cases hfetch
  have h0 : ¬ user_ids.isEmpty := by
    intro h
    rw [List.isEmpty_iff] at h
    rw [h] at hin
    cases hin
  rw [get_users, if_neg h0, if_neg h1]
  rcases hcred with hc | ht
  · rw [if_pos (by simp [hc])]
    exact ⟨⟨_, rfl⟩, rfl, rfl⟩
  · by_cases hc2 : strTruthy env.twitch_client_id
    · rw [if_neg (by simp [hc2]), if_pos (by simp [ht])]
      exact ⟨⟨_, rfl⟩, rfl, rfl⟩
    · rw [if_pos (by simp [hc2])]
      exact ⟨⟨_, rfl⟩, rfl, rfl⟩

/-- Witness for the amended C7: batch `[A]` with no cache entry and both
credentials unset. -/
theorem C7_witness :
    ("A" ∈ ["A"] ∧
      strTruthy (Env.mk none none).twitch_client_id = false) ∧
    ((∃ e, (get_users ["A"] [] ⟨none, none⟩ []).result = .error e) ∧
    (get_users ["A"] [] ⟨none, none⟩ []).directoryCall = none ∧
    (get_users ["A"] [] ⟨none, none⟩ []).cacheWriteCalls = 0) :=
  ⟨⟨by decide, rfl⟩,
    C7_missing_credentials_abort ["A"] [] ⟨none, none⟩ [] "A"
      (by decide) (by decide) (Or.inl rfl)⟩

def c7CacheResp : List CacheItem := [⟨"A", none, "loginA", "urlA", 9999⟩]

/-- Counterexample to C7 as stated: a non-empty batch whose every ID is
served from the cache succeeds even though both directory credentials are
absent — the credential check is only reached when the miss list is
non-empty, so no `ConfigurationError` is raised. -/
theorem C7_counterexample :
    (["A"] : List String) ≠ [] ∧
    (get_users ["A"] c7CacheResp ⟨none, none⟩ []).result =
      .ok [("A", ⟨"A", "loginA", "urlA"⟩)] :=
  ⟨by decide, rfl⟩

/-- C5 (amended): when messages were found and the snapshot write to the
`rankings` table fails, the processor reports the persistence failure to
its caller (status 500 with the write-error text), but the computed ranked
entries are NOT returned or delivered: `response_data` is replaced by the
error payload, so a synchronous requester receives
`{"type": "error", "data": {"message": ...}}` with no entries. -/
theorem C5_persistence_failure_discards_snapshot
    (responses : List ScanResponse) (e : String)
    (hmsgs : (scanAll responses).1 ≠ []) :
    (RankingsProcessor.get_ranking responses (some e) true).statusCode =
      500 ∧
    (RankingsProcessor.get_ranking responses (some e) true).body =
      "Error writing rankings: " ++ e ∧
    (RankingsProcessor.get_ranking responses (some e) true).posted =
      some (.error ("Error writing rankings: " ++ e)) := by
  have h : ¬ (scanAll responses).1.isEmpty := by
    simpa [List.isEmpty_iff] using hmsgs
  rw [RankingsProcessor.get_ranking, if_neg h]
  exact ⟨rfl, rfl, rfl⟩

def c5Responses : List ScanResponse :=
  [⟨[⟨some "user1", 1000⟩], none⟩]

/-- Witness for the amended C5. -/
theorem C5_witness :
    ((scanAll c5Responses).1 ≠ []) ∧
    ((RankingsProcessor.get_ranking c5Responses (some "DynamoDB write error")
        true).statusCode = 500 ∧
    (RankingsProcessor.get_ranking c5Responses (some "DynamoDB write error")
        true).body = "Error writing rankings: " ++ "DynamoDB write error" ∧
    (RankingsProcessor.get_ranking c5Responses (some "DynamoDB write error")
        true).posted =
      some (.error ("Error writing rankings: " ++ "DynamoDB write error"))) :=
  ⟨by decide,
    C5_persistence_failure_discards_snapshot c5Responses
      "DynamoDB write error" (by decide)⟩

/-- Counterexample to C5 as stated: one scanned message from `user1` whose
snapshot write fails.  The failure is reported (500), but the computed
snapshot value `[user1: 1]` is not delivered to the synchronous requester —
the posted payload is the error message, not the ranked entries. -/
theorem C5_counterexample :
    (RankingsProcessor.get_ranking c5Responses
      (some "DynamoDB write error") true).statusCode = 500 ∧
    (RankingsProcessor.get_ranking c5Responses
      (some "DynamoDB write error") true).posted ≠
      some (.ranking [("user1", 1)]) ∧
    (RankingsProcessor.get_ranking c5Responses
      (some "DynamoDB write error") true).posted =
      some (.error "Error writing rankings: DynamoDB write error") := by
  decide

/-- C6 (amended): for subscribers `[S1, S2, S3]` where delivery to S2
reports Gone and the others succeed, the broadcaster delivers exactly once
to S1 and to S3 (the Gone failure does not abort the fan-out) and removes
S2 from the registry — but it returns the constant
`{"statusCode": 200, "body": "Ranking sent to clients"}` dict, not a
`{delivered, pruned}` record. -/
theorem C6_broadcast_prunes_gone (S1 S2 S3 : String)
    (send : String → Broadcaster.SendOutcome)
    (h12 : S1 ≠ S2) (h13 : S1 ≠ S3) (h23 : S2 ≠ S3)
    (hs1 : send S1 = .ok) (hs2 : send S2 = .gone) (hs3 : send S3 = .ok) :
    (Broadcaster.lambda_handler [S1, S2, S3] send).delivered = [S1, S3] ∧
    (Broadcaster.lambda_handler [S1, S2, S3] send).removed = [S2] ∧
    (Broadcaster.lambda_handler [S1, S2, S3] send).remaining = [S1, S3] ∧
    (Broadcaster.lambda_handler [S1, S2, S3] send).response =
      [("statusCode", .int 200), ("body", .str "Ranking sent to clients")] := by
  have hf : Broadcaster.fanout [S1, S2, S3] send = ([S1, S3], [S2]) := by
    simp [Broadcaster.fanout, hs1, hs2, hs3]
  refine ⟨?_, ?_, ?_, rfl⟩
  · show (Broadcaster.fanout [S1, S2, S3] send).1 = [S1, S3]
    rw [hf]
  · show (Broadcaster.fanout [S1, S2, S3] send).2 = [S2]
    rw [hf]
  · show List.filter
      (fun c => c ∉ (Broadcaster.fanout [S1, S2, S3] send).2) [S1, S2, S3] =
      [S1, S3]
    rw [hf]
    simp [List.filter, h12, Ne.symm h23]

def c6Send : String → Broadcaster.SendOutcome :=
  fun c => if c = "S2" then .gone else .ok

/-- Witness for the amended C6. -/
theorem C6_witness :
    (c6Send "S1" = .ok ∧ c6Send "S2" = .gone ∧ c6Send "S3" = .ok) ∧
    ((Broadcaster.lambda_handler ["S1", "S2", "S3"] c6Send).delivered =
      ["S1", "S3"] ∧
    (Broadcaster.lambda_handler ["S1", "S2", "S3"] c6Send).removed =
      ["S2"] ∧
    (Broadcaster.lambda_handler ["S1", "S2", "S3"] c6Send).remaining =
      ["S1", "S3"] ∧
    (Broadcaster.lambda_handler ["S1", "S2", "S3"] c6Send).response =
      [("statusCode", .int 200),
        ("body", .str "Ranking sent to clients")]) :=
  ⟨⟨by decide, by decide, by decide⟩,
    C6_broadcast_prunes_gone "S1" "S2" "S3" c6Send (by decide) (by decide)
      (by decide) (by decide) (by decide) (by decide)⟩

/-- Counterexample to C6 as stated: in the `[S1, S2, S3]` run with S2 gone,
the handler's returned dict carries no `delivered`/`pruned` keys at all — it
is the constant status dict, not `{delivered: 2, pruned: 1}`. -/
theorem C6_counterexample :
    (Broadcaster.lambda_handler ["S1", "S2", "S3"] c6Send).response ≠
      [("delivered", .int 2), ("pruned", .int 1)] ∧
    ((Broadcaster.lambda_handler ["S1", "S2", "S3"] c6Send).response.find?
      (fun p => p.1 = "delivered")) = none ∧
    ((Broadcaster.lambda_handler ["S1", "S2", "S3"] c6Send).response.find?
      (fun p => p.1 = "pruned")) = none := by
  decide

/-- C8: with all required headers present, the webhook handler answers
403 when the HMAC signature check fails (`e1`), and answers 200 when the
signature is valid and the store write of the chat message fails (`e2`) —
the internally-recoverable store error is not surfaced to the caller. -/
theorem C8_webhook_statuses (hmacHex : String → String → String)
    (secret : String) (parse : String → Option CallBackTwitch.ParsedBody)
    (e1 e2 : CallBackTwitch.WebhookEvent)
    (hv1 : CallBackTwitch.is_valid_event e1 = true)
    (hs1 : CallBackTwitch.is_valid_signature hmacHex secret e1 = false)
    (hv2 : CallBackTwitch.is_valid_event e2 = true)
    (hs2 : CallBackTwitch.is_valid_signature hmacHex secret e2 = true)
    (hch : CallBackTwitch.is_challenge e2 = false)
    (hmsg : CallBackTwitch.is_channel_chat_message parse e2 = true) :
    CallBackTwitch.lambda_handler hmacHex secret parse false e1 =
      .ok ⟨403, [], none⟩ ∧
    CallBackTwitch.lambda_handler hmacHex secret parse false e2 =
      .ok ⟨200, [], none⟩ := by
  constructor
  · rw [CallBackTwitch.lambda_handler, if_neg (by simp [hv1]),
      if_pos (by simp [hs1])]
  · rw [CallBackTwitch.lambda_handler, if_neg (by simp [hv2]),
      if_neg (by simp [hs2]), if_neg (by simp [hch]), if_pos hmsg]
    rfl

def c8Headers (sig : String) : List (String × String) :=
  [(CallBackTwitch.MESSAGE_ID_KEY, "mid"),
    (CallBackTwitch.MESSAGE_TIMESTAMP_KEY, "ts"),
    (CallBackTwitch.MESSAGE_SIGNATURE_KEY, sig),
    (CallBackTwitch.MESSAGE_TYPE_KEY, "notification")]

def c8BadEvent : CallBackTwitch.WebhookEvent :=
  ⟨c8Headers "sha256=wrong", some "body"⟩

def c8GoodEvent : CallBackTwitch.WebhookEvent :=
  ⟨c8Headers "sha256=digest", some "body"⟩

def c8HmacHex : String → String → String := fun _ _ => "digest"

def c8Parse : String → Option CallBackTwitch.ParsedBody :=
  fun _ => some ⟨none, some "channel.chat.message"⟩

/-- Witness for C8: a concrete event pair with a wrong and a matching
signature, a chat-message body, and a failing store write. -/
theorem C8_witness :
    (CallBackTwitch.is_valid_event c8BadEvent = true ∧
      CallBackTwitch.is_valid_signature c8HmacHex "secret" c8BadEvent =
        false ∧
      CallBackTwitch.is_valid_signature c8HmacHex "secret" c8GoodEvent =
        true ∧
      CallBackTwitch.is_channel_chat_message c8Parse c8GoodEvent = true) ∧
    (CallBackTwitch.lambda_handler c8HmacHex "secret" c8Parse false
        c8BadEvent = .ok ⟨403, [], none⟩ ∧
      CallBackTwitch.lambda_handler c8HmacHex "secret" c8Parse false
        c8GoodEvent = .ok ⟨200, [], none⟩) :=
  ⟨⟨rfl, rfl, rfl, rfl⟩,
    C8_webhook_statuses c8HmacHex "secret" c8Parse c8BadEvent c8GoodEvent
      rfl rfl rfl rfl rfl rfl⟩

end PlsInteractBot
